import Mathlib

/-!
Verification development for the argument subsystem of the Souffle AST
(`src/AstArgument.h`): the node variants (variables, constants, functors,
records, type casts, aggregators, subroutine arguments), their structural
equality, deep cloning, child enumeration and the generic mapper protocol.

Modelling conventions:
* Each C++ node object carries an explicit heap identity `addr : Nat`; `clone`
  threads a fresh-address allocator, so disjointness of ownership ("a clone
  shares no owned sub-structure with the original") is expressible as
  disjointness of address sets.
* Machine words (`RamDomain`) are modelled as `Nat` values below `2 ^ 32`.
* C++ `assert` failures are modelled by `Option`/`none` results.
* Components of the repository that are not under `src/` (the functor-operator
  registry of `FunctorOps.h`, `SymbolTable.h`, the `AstNode` base of
  `AstNode.h`, the helpers of `Util.h`, and the out-of-line `AstAggregator`
  methods of `AstArgument.cpp`) are modelled from the spec; each such
  definition says so in its doc comment.
-/

namespace SouffleAst

/-- Modelled from the spec: source-location metadata carried by every `AstNode`
(`AstNode.h` is not under `src/`). The spec uses it only for diagnostics, never
for equality, so an abstract tag suffices. -/
structure SrcLoc where
  tag : Nat
deriving DecidableEq

/-- The three numeric kinds of `AstNumericConstant<numericType>`:
`RamSigned`, `RamUnsigned`, `RamFloat`. -/
inductive NumericKind : Type where
  | signed
  | unsigned
  | float
deriving DecidableEq

/-- Modelled from the spec: the closed registry of intrinsic operators
(`FunctorOps.h` is not under `src/`). The spec fixes a binary operator `add`
(Scenario 2) and shows the registry contains operators of other arities
(prefix call form `OP(a,b,...)`); `neg` stands for a unary one. -/
inductive FunctorOp : Type where
  | add
  | neg
deriving DecidableEq

/-- Modelled from the spec: the registry's declared arity per operator
(`arity(op) -> count` in the spec's external-interface list). -/
def functorOpArity : FunctorOp → Nat
  | .add => 2
  | .neg => 1

/-- Modelled from the spec: `isValidArity(op, count) -> bool`, the check the
variadic `AstIntrinsicFunctor` constructor asserts. -/
def isValidFunctorOpArity (f : FunctorOp) (n : Nat) : Bool :=
  decide (n = functorOpArity f)

/-- The aggregation operators of `AstAggregator::Op`. -/
inductive AggOp : Type where
  | min
  | max
  | count
  | sum
deriving DecidableEq

/-- Modelled from the spec: the external `AstLiteral` type owned by
`AstAggregator` bodies. The spec requires only that it be clonable,
structurally comparable and rewritable, so it is kept abstract: an address
(heap identity) plus an abstract structural payload. -/
structure AstLiteral where
  addr : Nat
  payload : Nat
deriving DecidableEq

/-- The `AstArgument` hierarchy of `AstArgument.h`, one constructor per
concrete C++ class. Every node carries its source location (`AstNode` base)
and its heap identity `addr`. `AstConstant`'s `ramRepresentation` word is the
`Nat` field of the three constant constructors; `AstStringConstant`
additionally stores which symbol table it references (`symTableRef`, the C++
`SymbolTable&` member). -/
inductive AstArgument : Type where
  | astVariable (loc : SrcLoc) (addr : Nat) (name : String)
  | astUnnamedVariable (loc : SrcLoc) (addr : Nat)
  | astCounter (loc : SrcLoc) (addr : Nat)
  | astNumericConstant (loc : SrcLoc) (addr : Nat) (kind : NumericKind)
      (ramRepresentation : Nat)
  | astStringConstant (loc : SrcLoc) (addr : Nat) (symTableRef : Nat)
      (ramRepresentation : Nat)
  | astNullConstant (loc : SrcLoc) (addr : Nat)
  | astIntrinsicFunctor (loc : SrcLoc) (addr : Nat) (function : FunctorOp)
      (args : List AstArgument)
  | astUserDefinedFunctor (loc : SrcLoc) (addr : Nat) (name : String)
      (args : List AstArgument)
  | astRecordInit (loc : SrcLoc) (addr : Nat) (args : List AstArgument)
  | astTypeCast (loc : SrcLoc) (addr : Nat) (value : AstArgument) (type : String)
  | astAggregator (loc : SrcLoc) (addr : Nat) (fn : AggOp)
      (expr : Option AstArgument) (body : List AstLiteral)
  | astSubroutineArgument (loc : SrcLoc) (addr : Nat) (number : Nat)

open AstArgument

/-- Equality of the abstract `AstLiteral` payloads (the spec requires body
literals to be structurally comparable; heap identity does not participate). -/
def litEqual (a b : AstLiteral) : Bool :=
  decide (a.payload = b.payload)

/-- Pairwise equality of literal lists, the `equal_targets` helper of `Util.h`
(not under `src/`; modelled from the spec: children are compared pairwise in
order, with length mismatch meaning inequality). -/
def litListEqual : List AstLiteral → List AstLiteral → Bool
  | [], [] => true
  | a :: as, b :: bs => litEqual a b && litListEqual as bs
  | _, _ => false

mutual

/-- Structural equality `operator==` on nodes: the dispatcher (modelled from
the spec: mismatched variants compare `false`, never throw; `AstNode.h` is not
under `src/`) combined with each variant's `equal` member from
`AstArgument.h`. Variant payloads compared: `AstVariable::equal` compares
names, `AstConstant::equal` compares the `ramRepresentation` word (note: not
the table reference), `AstIntrinsicFunctor::equal` compares operator and
arguments, `AstUserDefinedFunctor::equal` name and arguments,
`AstRecordInit::equal` arguments, `AstTypeCast::equal` type and value,
`AstAggregator::equal` operator, optional target and body,
`AstSubroutineArgument::equal` the number; `AstUnnamedVariable::equal` and
`AstCounter::equal` are constantly true. Source location and heap identity
never participate. -/
def equal : AstArgument → AstArgument → Bool
  | astVariable _ _ n, y =>
    match y with
    | astVariable _ _ m => decide (n = m)
    | _ => false
  | astUnnamedVariable _ _, y =>
    match y with
    | astUnnamedVariable _ _ => true
    | _ => false
  | astCounter _ _, y =>
    match y with
    | astCounter _ _ => true
    | _ => false
  | astNumericConstant _ _ k w, y =>
    match y with
    | astNumericConstant _ _ k' w' => decide (k = k') && decide (w = w')
    | _ => false
  | astStringConstant _ _ _ w, y =>
    match y with
    | astStringConstant _ _ _ w' => decide (w = w')
    | _ => false
  | astNullConstant _ _, y =>
    match y with
    | astNullConstant _ _ => true
    | _ => false
  | astIntrinsicFunctor _ _ f as, y =>
    match y with
    | astIntrinsicFunctor _ _ g bs => decide (f = g) && equalList as bs
    | _ => false
  | astUserDefinedFunctor _ _ n as, y =>
    match y with
    | astUserDefinedFunctor _ _ m bs => decide (n = m) && equalList as bs
    | _ => false
  | astRecordInit _ _ as, y =>
    match y with
    | astRecordInit _ _ bs => equalList as bs
    | _ => false
  | astTypeCast _ _ v t, y =>
    match y with
    | astTypeCast _ _ w u => decide (t = u) && equal v w
    | _ => false
  | astAggregator _ _ f e b, y =>
    match y with
    | astAggregator _ _ g e' b' =>
      decide (f = g) && equalOpt e e' && litListEqual b b'
    | _ => false
  | astSubroutineArgument _ _ n, y =>
    match y with
    | astSubroutineArgument _ _ m => decide (n = m)
    | _ => false

/-- The `equal_targets` helper of `Util.h` applied to argument lists (not
under `src/`; modelled from the spec: pairwise comparison in order, equal
lengths required). -/
def equalList : List AstArgument → List AstArgument → Bool
  | [], [] => true
  | a :: as, b :: bs => equal a b && equalList as bs
  | _, _ => false

/-- The `equal_ptr` helper of `Util.h` applied to the aggregator's optional
target (not under `src/`; modelled from the spec: both absent is equal, one
absent is not). -/
def equalOpt : Option AstArgument → Option AstArgument → Bool
  | none, none => true
  | some a, some b => equal a b
  | _, _ => false

end

/-- Modelled from the spec: `AstNode::getSrcLoc`, the accessor for the
source-location tag every node carries (`AstNode.h` is not under `src/`). -/
def getSrcLoc : AstArgument → SrcLoc
  | astVariable loc _ _ => loc
  | astUnnamedVariable loc _ => loc
  | astCounter loc _ => loc
  | astNumericConstant loc _ _ _ => loc
  | astStringConstant loc _ _ _ => loc
  | astNullConstant loc _ => loc
  | astIntrinsicFunctor loc _ _ _ => loc
  | astUserDefinedFunctor loc _ _ _ => loc
  | astRecordInit loc _ _ => loc
  | astTypeCast loc _ _ _ => loc
  | astAggregator loc _ _ _ _ => loc
  | astSubroutineArgument loc _ _ => loc

/-- Modelled from the spec: `AstNode::setSrcLoc`, replacing the node's own
source-location tag and nothing else. -/
def setSrcLoc : AstArgument → SrcLoc → AstArgument
  | astVariable _ ad n, loc => astVariable loc ad n
  | astUnnamedVariable _ ad, loc => astUnnamedVariable loc ad
  | astCounter _ ad, loc => astCounter loc ad
  | astNumericConstant _ ad k w, loc => astNumericConstant loc ad k w
  | astStringConstant _ ad t w, loc => astStringConstant loc ad t w
  | astNullConstant _ ad, loc => astNullConstant loc ad
  | astIntrinsicFunctor _ ad f as, loc => astIntrinsicFunctor loc ad f as
  | astUserDefinedFunctor _ ad n as, loc => astUserDefinedFunctor loc ad n as
  | astRecordInit _ ad as, loc => astRecordInit loc ad as
  | astTypeCast _ ad v t, loc => astTypeCast loc ad v t
  | astAggregator _ ad f e b, loc => astAggregator loc ad f e b
  | astSubroutineArgument _ ad n, loc => astSubroutineArgument loc ad n

/-- Clone of an opaque body literal (the spec requires `AstLiteral` to be
clonable): a fresh heap identity with the same structural payload. -/
def cloneLit (l : AstLiteral) (n : Nat) : AstLiteral × Nat :=
  (⟨n, l.payload⟩, n + 1)

/-- State-threading clone of a literal list, in order. -/
def cloneLits : List AstLiteral → Nat → List AstLiteral × Nat
  | [], n => ([], n)
  | l :: ls, n =>
    let (l', n') := cloneLit l n
    let (ls', n'') := cloneLits ls n'
    (l' :: ls', n'')

mutual

/-- The `clone` member of every variant in `AstArgument.h`: a freshly
allocated node of the same variant (`new ...`, modelled as consuming the next
address from the allocator counter), with the payload copied, every owned
child cloned recursively in order, and the source location copied verbatim
(`res->setSrcLoc(getSrcLoc())`). `AstStringConstant::clone` goes through the
private index-taking constructor, so the table reference and the stored word
are copied as-is. `AstNumericConstant::clone` re-encodes `getConstant()`,
which is a bit-pattern identity on the stored word. `AstAggregator::clone` is
declared in `AstArgument.h` but defined in `AstArgument.cpp`, which is not
under `src/`; it is modelled from the spec: deep clone of the optional target
and of every body literal, in order. -/
def clone : AstArgument → Nat → AstArgument × Nat
  | astVariable loc _ name, n => (astVariable loc n name, n + 1)
  | astUnnamedVariable loc _, n => (astUnnamedVariable loc n, n + 1)
  | astCounter loc _, n => (astCounter loc n, n + 1)
  | astNumericConstant loc _ k w, n => (astNumericConstant loc n k w, n + 1)
  | astStringConstant loc _ t w, n => (astStringConstant loc n t w, n + 1)
  | astNullConstant loc _, n => (astNullConstant loc n, n + 1)
  | astIntrinsicFunctor loc _ f as, n =>
    let (bs, n') := cloneList as (n + 1)
    (astIntrinsicFunctor loc n f bs, n')
  | astUserDefinedFunctor loc _ nm as, n =>
    let (bs, n') := cloneList as (n + 1)
    (astUserDefinedFunctor loc n nm bs, n')
  | astRecordInit loc _ as, n =>
    let (bs, n') := cloneList as (n + 1)
    (astRecordInit loc n bs, n')
  | astTypeCast loc _ v t, n =>
    let (v', n') := clone v (n + 1)
    (astTypeCast loc n v' t, n')
  | astAggregator loc _ f e b, n =>
    let (e', n') := cloneOpt e (n + 1)
    let (b', n'') := cloneLits b n'
    (astAggregator loc n f e' b', n'')
  | astSubroutineArgument loc _ nr, n => (astSubroutineArgument loc n nr, n + 1)

/-- Clone of an argument list, element by element in order (the per-variant
`for (auto& arg : args) argsCopy.emplace_back(arg->clone());` loops). -/
def cloneList : List AstArgument → Nat → List AstArgument × Nat
  | [], n => ([], n)
  | a :: as, n =>
    let (a', n') := clone a n
    let (as', n'') := cloneList as n'
    (a' :: as', n'')

/-- Clone of the aggregator's optional target expression. -/
def cloneOpt : Option AstArgument → Nat → Option AstArgument × Nat
  | none, n => (none, n)
  | some a, n =>
    let (a', n') := clone a n
    (some a', n')

end

mutual

/-- All heap identities occurring in a node's owned subtree (the node itself,
its owned arguments, its owned body literals). -/
def addrs : AstArgument → List Nat
  | astVariable _ ad _ => [ad]
  | astUnnamedVariable _ ad => [ad]
  | astCounter _ ad => [ad]
  | astNumericConstant _ ad _ _ => [ad]
  | astStringConstant _ ad _ _ => [ad]
  | astNullConstant _ ad => [ad]
  | astIntrinsicFunctor _ ad _ as => ad :: addrsList as
  | astUserDefinedFunctor _ ad _ as => ad :: addrsList as
  | astRecordInit _ ad as => ad :: addrsList as
  | astTypeCast _ ad v _ => ad :: addrs v
  | astAggregator _ ad _ e b => ad :: (addrsOpt e ++ b.map AstLiteral.addr)
  | astSubroutineArgument _ ad _ => [ad]

/-- Heap identities of an argument list's subtrees. -/
def addrsList : List AstArgument → List Nat
  | [] => []
  | a :: as => addrs a ++ addrsList as

/-- Heap identities of an optional argument's subtree. -/
def addrsOpt : Option AstArgument → List Nat
  | none => []
  | some a => addrs a

end

/-- A tree is allocated below `n` when every heap identity in it is `< n`;
a fresh allocator counter `n` then clones it into entirely new storage. -/
def addrsBelow (n : Nat) (x : AstArgument) : Prop :=
  ∀ a ∈ addrs x, a < n

instance (n : Nat) (x : AstArgument) : Decidable (addrsBelow n x) := by
  unfold addrsBelow; infer_instance

mutual

/-- Erase every heap identity in a tree (set each to `0`), keeping variant,
payload and source locations: two C++ trees are field-for-field identical
copies of one another exactly when their erasures agree. -/
def eraseAddr : AstArgument → AstArgument
  | astVariable loc _ n => astVariable loc 0 n
  | astUnnamedVariable loc _ => astUnnamedVariable loc 0
  | astCounter loc _ => astCounter loc 0
  | astNumericConstant loc _ k w => astNumericConstant loc 0 k w
  | astStringConstant loc _ t w => astStringConstant loc 0 t w
  | astNullConstant loc _ => astNullConstant loc 0
  | astIntrinsicFunctor loc _ f as => astIntrinsicFunctor loc 0 f (eraseAddrList as)
  | astUserDefinedFunctor loc _ n as => astUserDefinedFunctor loc 0 n (eraseAddrList as)
  | astRecordInit loc _ as => astRecordInit loc 0 (eraseAddrList as)
  | astTypeCast loc _ v t => astTypeCast loc 0 (eraseAddr v) t
  | astAggregator loc _ f e b =>
    astAggregator loc 0 f (eraseAddrOpt e) (b.map fun l => ⟨0, l.payload⟩)
  | astSubroutineArgument loc _ n => astSubroutineArgument loc 0 n

/-- Address erasure on argument lists. -/
def eraseAddrList : List AstArgument → List AstArgument
  | [] => []
  | a :: as => eraseAddr a :: eraseAddrList as

/-- Address erasure on the optional target. -/
def eraseAddrOpt : Option AstArgument → Option AstArgument
  | none => none
  | some a => some (eraseAddr a)

end

mutual

/-- The canonical form retaining exactly what `equal` observes: heap
identities, source locations and the string constant's table reference are
zeroed throughout; variant, payloads and child structure are kept. -/
def strip : AstArgument → AstArgument
  | astVariable _ _ n => astVariable ⟨0⟩ 0 n
  | astUnnamedVariable _ _ => astUnnamedVariable ⟨0⟩ 0
  | astCounter _ _ => astCounter ⟨0⟩ 0
  | astNumericConstant _ _ k w => astNumericConstant ⟨0⟩ 0 k w
  | astStringConstant _ _ _ w => astStringConstant ⟨0⟩ 0 0 w
  | astNullConstant _ _ => astNullConstant ⟨0⟩ 0
  | astIntrinsicFunctor _ _ f as => astIntrinsicFunctor ⟨0⟩ 0 f (stripList as)
  | astUserDefinedFunctor _ _ n as => astUserDefinedFunctor ⟨0⟩ 0 n (stripList as)
  | astRecordInit _ _ as => astRecordInit ⟨0⟩ 0 (stripList as)
  | astTypeCast _ _ v t => astTypeCast ⟨0⟩ 0 (strip v) t
  | astAggregator _ _ f e b =>
    astAggregator ⟨0⟩ 0 f (stripOpt e) (b.map fun l => ⟨0, l.payload⟩)
  | astSubroutineArgument _ _ n => astSubroutineArgument ⟨0⟩ 0 n

/-- Canonical form of argument lists. -/
def stripList : List AstArgument → List AstArgument
  | [] => []
  | a :: as => strip a :: stripList as

/-- Canonical form of the optional target. -/
def stripOpt : Option AstArgument → Option AstArgument
  | none => none
  | some a => some (strip a)

end

/-- A child slot as reported by `getChildNodes`: a pointer to an owned
argument or to an owned body literal (`const AstNode*` in the source). -/
inductive AstNode : Type where
  | argNode (a : AstArgument)
  | litNode (l : AstLiteral)

/-- The `getChildNodes` member: `AstArgument`'s base returns the empty list
(leaves, constants and `AstSubroutineArgument` inherit it), `AstFunctor` and
`AstRecordInit` append their owned arguments in order, `AstTypeCast` its
single value. `AstAggregator::getChildNodes` is declared in `AstArgument.h`
but defined in `AstArgument.cpp`, which is not under `src/`; it is modelled
from the spec: the target expression (if set) followed by the body literals in
append order. -/
def getChildNodes : AstArgument → List AstNode
  | astVariable _ _ _ => []
  | astUnnamedVariable _ _ => []
  | astCounter _ _ => []
  | astNumericConstant _ _ _ _ => []
  | astStringConstant _ _ _ _ => []
  | astNullConstant _ _ => []
  | astIntrinsicFunctor _ _ _ as => as.map .argNode
  | astUserDefinedFunctor _ _ _ as => as.map .argNode
  | astRecordInit _ _ as => as.map .argNode
  | astTypeCast _ _ v _ => [.argNode v]
  | astAggregator _ _ _ e b =>
    (match e with
     | some a => [AstNode.argNode a]
     | none => []) ++ b.map .litNode
  | astSubroutineArgument _ _ _ => []

/-- Modelled from the spec: the caller-supplied rewrite of the mapper
protocol (`AstNodeMapper` of `AstNode.h`, not under `src/`). A C++ mapper is a
function object and may carry mutable state, so it is modelled with an
explicit state `σ`; it receives ownership of one child and returns the node to
install in that slot. `mapArg` is its action on owned argument slots, `mapLit`
on owned body-literal slots. -/
structure AstNodeMapper (σ : Type) where
  mapArg : AstArgument → σ → AstArgument × σ
  mapLit : AstLiteral → σ → AstLiteral × σ

/-- Run a stateful slot rewrite over a list left to right (the
`for (auto& arg : args) arg = map(std::move(arg));` loops). -/
def mapStateList (f : α → σ → α × σ) : List α → σ → List α × σ
  | [], s => ([], s)
  | a :: as, s =>
    let (b, s') := f a s
    let (bs, s'') := mapStateList f as s'
    (b :: bs, s'')

/-- Run a stateful slot rewrite over an optional slot
(`if (expr) expr = map(std::move(expr));`). -/
def mapStateOpt (f : α → σ → α × σ) : Option α → σ → Option α × σ
  | none, s => (none, s)
  | some a, s =>
    let (b, s') := f a s
    (some b, s')

/-- The `apply` member of every variant in `AstArgument.h`: leaves and
constants do nothing ("no sub-nodes to consider"); `AstFunctor::apply` and
`AstRecordInit::apply` pass each owned argument through the mapper in order,
installing the result; `AstTypeCast::apply` passes its single value;
`AstAggregator::apply` passes the target expression when present, then each
body literal in order. Not recursive: only the direct children of the
receiver go through the mapper. -/
def apply (m : AstNodeMapper σ) : AstArgument → σ → AstArgument × σ
  | x@(astVariable _ _ _), s => (x, s)
  | x@(astUnnamedVariable _ _), s => (x, s)
  | x@(astCounter _ _), s => (x, s)
  | x@(astNumericConstant _ _ _ _), s => (x, s)
  | x@(astStringConstant _ _ _ _), s => (x, s)
  | x@(astNullConstant _ _), s => (x, s)
  | astIntrinsicFunctor loc ad f as, s =>
    let (bs, s') := mapStateList m.mapArg as s
    (astIntrinsicFunctor loc ad f bs, s')
  | astUserDefinedFunctor loc ad n as, s =>
    let (bs, s') := mapStateList m.mapArg as s
    (astUserDefinedFunctor loc ad n bs, s')
  | astRecordInit loc ad as, s =>
    let (bs, s') := mapStateList m.mapArg as s
    (astRecordInit loc ad bs, s')
  | astTypeCast loc ad v t, s =>
    let (v', s') := m.mapArg v s
    (astTypeCast loc ad v' t, s')
  | astAggregator loc ad f e b, s =>
    let (e', s') := mapStateOpt m.mapArg e s
    let (b', s'') := mapStateList m.mapLit b s'
    (astAggregator loc ad f e' b', s'')
  | x@(astSubroutineArgument _ _ _), s => (x, s)

/-- The identity mapper: every slot is returned unchanged and the mapper
state is untouched. -/
def idMapper (σ : Type) : AstNodeMapper σ :=
  ⟨fun a s => (a, s), fun l s => (l, s)⟩

/-- The mapper's action on a child slot of either sort, as enumerated by
`getChildNodes`. -/
def AstNodeMapper.mapNode (m : AstNodeMapper σ) : AstNode → σ → AstNode × σ
  | .argNode a, s =>
    let (b, s') := m.mapArg a s
    (.argNode b, s')
  | .litNode l, s =>
    let (l', s') := m.mapLit l s
    (.litNode l', s')

/-- The `AstFunctor::getArity` member: the length of the owned argument list
(`args.size()`); defined on the two functor variants. -/
def AstFunctor.getArity : AstArgument → Nat
  | astIntrinsicFunctor _ _ _ as => as.length
  | astUserDefinedFunctor _ _ _ as => as.length
  | _ => 0

/-- The `AstFunctor::getArguments` member (`toPtrVector(args)`): the owned
argument list in order. -/
def AstFunctor.getArguments : AstArgument → List AstArgument
  | astIntrinsicFunctor _ _ _ as => as
  | astUserDefinedFunctor _ _ _ as => as
  | _ => []

/-- The `AstFunctor::getArg` member: asserts `idx < args.size()` ("argument
index out of bounds") and returns `args[idx]`; the failed assertion is
modelled by `none`, which is exactly what `as[idx]?` yields out of range. -/
def AstFunctor.getArg (x : AstArgument) (idx : Nat) : Option AstArgument :=
  match x with
  | astIntrinsicFunctor _ _ _ as => as[idx]?
  | astUserDefinedFunctor _ _ _ as => as[idx]?
  | _ => none

/-- The `AstFunctor::setArg` member: asserts `idx < args.size()` ("argument
index out of bounds", modelled by `none`) and overwrites slot `idx` with the
supplied argument (`args[idx] = std::move(arg)`). -/
def AstFunctor.setArg (x : AstArgument) (idx : Nat) (arg : AstArgument) :
    Option AstArgument :=
  match x with
  | astIntrinsicFunctor loc ad f as =>
    if idx < as.length then some (astIntrinsicFunctor loc ad f (as.set idx arg))
    else none
  | astUserDefinedFunctor loc ad n as =>
    if idx < as.length then some (astUserDefinedFunctor loc ad n (as.set idx arg))
    else none
  | _ => none

/-- The variadic public constructor
`AstIntrinsicFunctor(FunctorOp, Operands...)`: collects the operand pack into
the argument list and asserts
`isValidFunctorOpArity(function, args.size())` ("invalid number of arguments
for functor"); the failed assertion is modelled by `none`. -/
def AstIntrinsicFunctor.mkOps (loc : SrcLoc) (ad : Nat) (function : FunctorOp)
    (operands : List AstArgument) : Option AstArgument :=
  if isValidFunctorOpArity function operands.length then
    some (astIntrinsicFunctor loc ad function operands)
  else none

/-- The list-taking public constructor
`AstIntrinsicFunctor(FunctorOp, std::vector<std::unique_ptr<AstArgument>>)`:
stores the operands as the argument list; it contains no arity assertion. -/
def AstIntrinsicFunctor.mkVec (loc : SrcLoc) (ad : Nat) (function : FunctorOp)
    (operands : List AstArgument) : AstArgument :=
  astIntrinsicFunctor loc ad function operands

/-- The `AstIntrinsicFunctor::getFunction` member. -/
def AstIntrinsicFunctor.getFunction : AstArgument → Option FunctorOp
  | astIntrinsicFunctor _ _ f _ => some f
  | _ => none

/-- The `AstIntrinsicFunctor::setFunction` member: overwrites the operator
tag (`function = functor;`) and nothing else; the body contains no registry
consultation. -/
def AstIntrinsicFunctor.setFunction : AstArgument → FunctorOp → AstArgument
  | astIntrinsicFunctor loc ad _ as, g => astIntrinsicFunctor loc ad g as
  | x, _ => x

/-- The `AstVariable::setName` member: overwrites the stored name. -/
def AstVariable.setName : AstArgument → String → AstArgument
  | astVariable loc ad _, n => astVariable loc ad n
  | x, _ => x

/-- The `AstVariable::getName` member. -/
def AstVariable.getName : AstArgument → Option String
  | astVariable _ _ n => some n
  | _ => none

mutual

/-- The heap-level effect of calling `AstVariable::setName` through a pointer
to the variable object at address `a` while a tree is in scope: the write
lands in the tree exactly when the tree owns the object at `a`, and changes
nothing else. This is the observation vehicle for ownership claims: writing
through the clone's pointers must leave the original untouched. -/
def setNameAt (a : Nat) (newName : String) : AstArgument → AstArgument
  | astVariable loc ad n =>
    if ad = a then astVariable loc ad newName else astVariable loc ad n
  | astUnnamedVariable loc ad => astUnnamedVariable loc ad
  | astCounter loc ad => astCounter loc ad
  | astNumericConstant loc ad k w => astNumericConstant loc ad k w
  | astStringConstant loc ad t w => astStringConstant loc ad t w
  | astNullConstant loc ad => astNullConstant loc ad
  | astIntrinsicFunctor loc ad f as =>
    astIntrinsicFunctor loc ad f (setNameAtList a newName as)
  | astUserDefinedFunctor loc ad n as =>
    astUserDefinedFunctor loc ad n (setNameAtList a newName as)
  | astRecordInit loc ad as => astRecordInit loc ad (setNameAtList a newName as)
  | astTypeCast loc ad v t => astTypeCast loc ad (setNameAt a newName v) t
  | astAggregator loc ad f e b =>
    astAggregator loc ad f (setNameAtOpt a newName e) b
  | astSubroutineArgument loc ad n => astSubroutineArgument loc ad n

/-- The write propagated through an owned argument list. -/
def setNameAtList (a : Nat) (newName : String) :
    List AstArgument → List AstArgument
  | [] => []
  | x :: xs => setNameAt a newName x :: setNameAtList a newName xs

/-- The write propagated through the optional target. -/
def setNameAtOpt (a : Nat) (newName : String) :
    Option AstArgument → Option AstArgument
  | none => none
  | some x => some (setNameAt a newName x)

end

/-- The `AstAggregator` constructor `AstAggregator(Op fun)`: the operator tag
with no target expression (`expr(nullptr)`) and no body literals. -/
def AstAggregator.mk (loc : SrcLoc) (ad : Nat) (fn : AggOp) : AstArgument :=
  astAggregator loc ad fn none []

/-- The `AstAggregator::setTargetExpression` member: installs (or replaces)
the owned target expression. -/
def AstAggregator.setTargetExpression : AstArgument → AstArgument → AstArgument
  | astAggregator loc ad f _ b, arg => astAggregator loc ad f (some arg) b
  | x, _ => x

/-- The `AstAggregator::addBodyLiteral` member: appends one owned body
literal (`body.push_back`). -/
def AstAggregator.addBodyLiteral : AstArgument → AstLiteral → AstArgument
  | astAggregator loc ad f e b, lit => astAggregator loc ad f e (b ++ [lit])
  | x, _ => x

/-- The `AstAggregator::clearBodyLiterals` member (`body.clear()`). -/
def AstAggregator.clearBodyLiterals : AstArgument → AstArgument
  | astAggregator loc ad f e _ => astAggregator loc ad f e []
  | x => x

/-- The `AstRecordInit::add` member: appends one owned field expression. -/
def AstRecordInit.add : AstArgument → AstArgument → AstArgument
  | astRecordInit loc ad as, arg => astRecordInit loc ad (as ++ [arg])
  | x, _ => x

/-- Modelled from the spec: the external `SymbolTable` (`SymbolTable.h` is
not under `src/`): a text-interning service mapping strings to stable integer
indices and back; its state is the interning order. -/
structure SymbolTable where
  syms : List String
deriving DecidableEq

/-- Modelled from the spec: `SymbolTable::lookup(text) -> index`, interning
the text if absent, stable thereafter; returns the index together with the
possibly extended table. -/
def SymbolTable.lookup (st : SymbolTable) (s : String) : Nat × SymbolTable :=
  match st.syms.findIdx? (fun t => t == s) with
  | some i => (i, st)
  | none => (st.syms.length, ⟨st.syms ++ [s]⟩)

/-- Modelled from the spec: `SymbolTable::resolve(index) -> text`; an index
never produced by `lookup` on this table is a contract violation, modelled by
`none`. -/
def SymbolTable.resolve (st : SymbolTable) (i : Nat) : Option String :=
  st.syms[i]?

/-- The public constructor `AstStringConstant(SymbolTable&, const
std::string&)`: interns the text (`symTable.lookup(c)`), stores the returned
index as the `ramRepresentation` word and keeps the table reference; returns
the node together with the possibly extended table. -/
def AstStringConstant.mk (loc : SrcLoc) (ad : Nat) (symTableRef : Nat)
    (st : SymbolTable) (c : String) : AstArgument × SymbolTable :=
  let (i, st') := st.lookup c
  (astStringConstant loc ad symTableRef i, st')

/-- The `AstStringConstant::getConstant` member:
`symTable.resolve(ramRepresentation)`, taking the table state explicitly. -/
def AstStringConstant.getConstant (st : SymbolTable) : AstArgument → Option String
  | astStringConstant _ _ _ w => st.resolve w
  | _ => none

/-- Modelled from the spec: the two's-complement bit pattern of a 32-bit
signed value (`ramBitCast : RamSigned -> RamDomain`; the `RamTypes` header is
not under `src/`; the spec fixes signed values to encode as their
two's-complement bit pattern). -/
def encodeSigned (v : Int) : Nat :=
  (v % (2 ^ 32 : Int)).toNat

/-- Modelled from the spec: reading a 32-bit word back as a two's-complement
signed value (`ramBitCast<RamSigned>`), the exact inverse on representable
values. -/
def decodeSigned (w : Nat) : Int :=
  if w < 2 ^ 31 then (w : Int) else (w : Int) - 2 ^ 32

/-- Modelled from the spec: an unsigned 32-bit value is its own bit pattern
(`ramBitCast` between `RamUnsigned` and the domain word). -/
def encodeUnsigned (v : Nat) : Nat := v

/-- Modelled from the spec: reading the word back as an unsigned value. -/
def decodeUnsigned (w : Nat) : Nat := w

/-- Modelled from the spec: an IEEE-754 binary32 value, represented by its
three bit fields (the spec requires floating values to encode as their IEEE
bit pattern; positive and negative zero are `(sign, 0, 0)`, the infinities
`(sign, 255, 0)`). -/
structure Float32 where
  sign : Bool
  exp : Nat
  frac : Nat
deriving DecidableEq

/-- A well-formed binary32 bit-field triple: 8 exponent bits, 23 fraction
bits. -/
def Float32.valid (f : Float32) : Prop :=
  f.exp < 2 ^ 8 ∧ f.frac < 2 ^ 23

instance (f : Float32) : Decidable f.valid := by
  unfold Float32.valid; infer_instance

/-- Modelled from the spec: packing the IEEE binary32 bit fields into the
domain word (`ramBitCast : RamFloat -> RamDomain`). -/
def encodeFloat (f : Float32) : Nat :=
  (cond f.sign 1 0) * 2 ^ 31 + f.exp * 2 ^ 23 + f.frac

/-- Modelled from the spec: unpacking the domain word into the IEEE binary32
bit fields (`ramBitCast<RamFloat>`). -/
def decodeFloat (w : Nat) : Float32 :=
  ⟨decide (w / 2 ^ 31 % 2 = 1), w / 2 ^ 23 % 2 ^ 8, w % 2 ^ 23⟩

/-- The constructor `AstNumericConstant<RamSigned>(value)` (the
`AstNumberConstant` alias): stores the bit cast of the value as the
`ramRepresentation` word. -/
def AstNumberConstant.mk (loc : SrcLoc) (ad : Nat) (v : Int) : AstArgument :=
  astNumericConstant loc ad .signed (encodeSigned v)

/-- The constructor `AstNumericConstant<RamUnsigned>(value)` (the
`AstUnsignedConstant` alias). -/
def AstUnsignedConstant.mk (loc : SrcLoc) (ad : Nat) (v : Nat) : AstArgument :=
  astNumericConstant loc ad .unsigned (encodeUnsigned v)

/-- The constructor `AstNumericConstant<RamFloat>(value)` (the
`AstFloatConstant` alias). -/
def AstFloatConstant.mk (loc : SrcLoc) (ad : Nat) (v : Float32) : AstArgument :=
  astNumericConstant loc ad .float (encodeFloat v)

/-- The `getConstant` member at kind `RamSigned`:
`ramBitCast<RamSigned>(ramRepresentation)`. -/
def AstNumberConstant.getConstant : AstArgument → Option Int
  | astNumericConstant _ _ .signed w => some (decodeSigned w)
  | _ => none

/-- The `getConstant` member at kind `RamUnsigned`. -/
def AstUnsignedConstant.getConstant : AstArgument → Option Nat
  | astNumericConstant _ _ .unsigned w => some (decodeUnsigned w)
  | _ => none

/-- The `getConstant` member at kind `RamFloat`. -/
def AstFloatConstant.getConstant : AstArgument → Option Float32
  | astNumericConstant _ _ .float w => some (decodeFloat w)
  | _ => none

/-- The `AstConstant::getRamRepresentation` member: the stored domain word of
any constant variant (`AstNullConstant` stores the sentinel `0`). -/
def AstConstant.getRamRepresentation : AstArgument → Option Nat
  | astNumericConstant _ _ _ w => some w
  | astStringConstant _ _ _ w => some w
  | astNullConstant _ _ => some 0
  | _ => none

/-- The `AstTypeCast::getValue` member: the wrapped sub-expression. -/
def AstTypeCast.getValue : AstArgument → Option AstArgument
  | astTypeCast _ _ v _ => some v
  | _ => none

/-- The `AstTypeCast::getType` member: the target type name. -/
def AstTypeCast.getType : AstArgument → Option String
  | astTypeCast _ _ _ t => some t
  | _ => none

/-- The `AstTypeCast::setType` member: replaces the target type name in
place, leaving the wrapped value untouched. -/
def AstTypeCast.setType : AstArgument → String → AstArgument
  | astTypeCast loc ad v _, t => astTypeCast loc ad v t
  | x, _ => x

/-- The `AstAggregator::getTargetExpression` member. -/
def AstAggregator.getTargetExpression : AstArgument → Option AstArgument
  | astAggregator _ _ _ e _ => e
  | _ => none

/-- The `AstAggregator::getBodyLiterals` member (`toPtrVector(body)`). -/
def AstAggregator.getBodyLiterals : AstArgument → List AstLiteral
  | astAggregator _ _ _ _ b => b
  | _ => []

/-- The node variants that own no children (`AstVariable`,
`AstUnnamedVariable`, `AstCounter`, the constants, `AstSubroutineArgument`):
their `apply` bodies are empty ("no sub-nodes to consider"). -/
def isLeafVariant : AstArgument → Bool
  | astVariable _ _ _ => true
  | astUnnamedVariable _ _ => true
  | astCounter _ _ => true
  | astNumericConstant _ _ _ _ => true
  | astStringConstant _ _ _ _ => true
  | astNullConstant _ _ => true
  | astIntrinsicFunctor _ _ _ _ => false
  | astUserDefinedFunctor _ _ _ _ => false
  | astRecordInit _ _ _ => false
  | astTypeCast _ _ _ _ => false
  | astAggregator _ _ _ _ _ => false
  | astSubroutineArgument _ _ _ => true

/-- A discriminator for the dynamic type of a node, one value per concrete
C++ class; the three `AstNumericConstant` instantiations are distinct
classes, hence distinct discriminators. -/
def variantTag : AstArgument → Nat
  | astVariable _ _ _ => 0
  | astUnnamedVariable _ _ => 1
  | astCounter _ _ => 2
  | astNumericConstant _ _ .signed _ => 3
  | astNumericConstant _ _ .unsigned _ => 4
  | astNumericConstant _ _ .float _ => 5
  | astStringConstant _ _ _ _ => 6
  | astNullConstant _ _ => 7
  | astIntrinsicFunctor _ _ _ _ => 8
  | astUserDefinedFunctor _ _ _ _ => 9
  | astRecordInit _ _ _ => 10
  | astTypeCast _ _ _ _ => 11
  | astAggregator _ _ _ _ _ => 12
  | astSubroutineArgument _ _ _ => 13

theorem litEqual_refl (l : AstLiteral) : litEqual l l = true := by
  simp [litEqual]

theorem litListEqual_refl : (b : List AstLiteral) → litListEqual b b = true
  | [] => rfl
  | l :: ls => by simp [litListEqual, litEqual_refl l, litListEqual_refl ls]

mutual

theorem equal_refl : (x : AstArgument) → equal x x = true
  | astVariable _ _ _ => by simp [equal]
  | astUnnamedVariable _ _ => by simp [equal]
  | astCounter _ _ => by simp [equal]
  | astNumericConstant _ _ _ _ => by simp [equal]
  | astStringConstant _ _ _ _ => by simp [equal]
  | astNullConstant _ _ => by simp [equal]
  | astIntrinsicFunctor _ _ _ as => by simp [equal, equalList_refl as]
  | astUserDefinedFunctor _ _ _ as => by simp [equal, equalList_refl as]
  | astRecordInit _ _ as => by simp [equal, equalList_refl as]
  | astTypeCast _ _ v _ => by simp [equal, equal_refl v]
  | astAggregator _ _ _ e b => by
    simp [equal, equalOpt_refl e, litListEqual_refl b]
  | astSubroutineArgument _ _ _ => by simp [equal]

theorem equalList_refl : (as : List AstArgument) → equalList as as = true
  | [] => rfl
  | a :: as => by simp [equalList, equal_refl a, equalList_refl as]

theorem equalOpt_refl : (e : Option AstArgument) → equalOpt e e = true
  | none => rfl
  | some a => by simp [equalOpt, equal_refl a]

end

theorem decide_comm {α : Type} [DecidableEq α] (a b : α) :
    decide (a = b) = decide (b = a) := by
  simp only [decide_eq_decide]
  exact eq_comm

theorem litEqual_symm (a b : AstLiteral) : litEqual a b = litEqual b a := by
  simp [litEqual, decide_comm]

theorem litListEqual_symm : (b b' : List AstLiteral) →
    litListEqual b b' = litListEqual b' b
  | [], [] => rfl
  | [], _ :: _ => rfl
  | _ :: _, [] => rfl
  | l :: ls, l' :: ls' => by
    simp [litListEqual, litEqual_symm l l', litListEqual_symm ls ls']

mutual

theorem equal_symm : (x y : AstArgument) → equal x y = equal y x
  | astVariable _ _ _, y => by cases y <;> simp [equal, decide_comm]
  | astUnnamedVariable _ _, y => by cases y <;> simp [equal]
  | astCounter _ _, y => by cases y <;> simp [equal]
  | astNumericConstant _ _ _ _, y => by cases y <;> simp [equal, decide_comm]
  | astStringConstant _ _ _ _, y => by cases y <;> simp [equal, decide_comm]
  | astNullConstant _ _, y => by cases y <;> simp [equal]
  | astIntrinsicFunctor _ _ _ as, y => by
    cases y <;> simp [equal, decide_comm]
    rw [equalList_symm as]
  | astUserDefinedFunctor _ _ _ as, y => by
    cases y <;> simp [equal, decide_comm]
    rw [equalList_symm as]
  | astRecordInit _ _ as, y => by
    cases y <;> simp [equal]
    rw [equalList_symm as]
  | astTypeCast _ _ v _, y => by
    cases y <;> simp [equal, decide_comm]
    rw [equal_symm v]
  | astAggregator _ _ _ e b, y => by
    cases y <;> simp [equal, decide_comm, litListEqual_symm b]
    rw [equalOpt_symm e]
  | astSubroutineArgument _ _ _, y => by cases y <;> simp [equal, decide_comm]

theorem equalList_symm : (as bs : List AstArgument) →
    equalList as bs = equalList bs as
  | [], [] => rfl
  | [], _ :: _ => rfl
  | _ :: _, [] => rfl
  | a :: as, b :: bs => by
    simp [equalList, equal_symm a b, equalList_symm as bs]

theorem equalOpt_symm : (e e' : Option AstArgument) →
    equalOpt e e' = equalOpt e' e
  | none, none => rfl
  | none, some _ => rfl
  | some _, none => rfl
  | some a, some b => by simp [equalOpt, equal_symm a b]

end

theorem litListEqual_map_zero : (b b' : List AstLiteral) →
    litListEqual (b.map fun l => ⟨0, l.payload⟩)
      (b'.map fun l => ⟨0, l.payload⟩) = litListEqual b b'
  | [], [] => rfl
  | [], _ :: _ => rfl
  | _ :: _, [] => rfl
  | l :: ls, l' :: ls' => by
    simp [litListEqual, litEqual, litListEqual_map_zero ls ls']

mutual

theorem equal_strip : (x y : AstArgument) →
    equal (strip x) (strip y) = equal x y
  | astVariable _ _ _, y => by cases y <;> simp [equal, strip]
  | astUnnamedVariable _ _, y => by cases y <;> simp [equal, strip]
  | astCounter _ _, y => by cases y <;> simp [equal, strip]
  | astNumericConstant _ _ _ _, y => by cases y <;> simp [equal, strip]
  | astStringConstant _ _ _ _, y => by cases y <;> simp [equal, strip]
  | astNullConstant _ _, y => by cases y <;> simp [equal, strip]
  | astIntrinsicFunctor _ _ _ as, y => by
    cases y <;> simp [equal, strip]
    rw [equalList_strip as]
  | astUserDefinedFunctor _ _ _ as, y => by
    cases y <;> simp [equal, strip]
    rw [equalList_strip as]
  | astRecordInit _ _ as, y => by
    cases y <;> simp [equal, strip]
    rw [equalList_strip as]
  | astTypeCast _ _ v _, y => by
    cases y <;> simp [equal, strip]
    rw [equal_strip v]
  | astAggregator _ _ _ e b, y => by
    cases y <;> simp [equal, strip, litListEqual_map_zero b]
    rw [equalOpt_strip e]
  | astSubroutineArgument _ _ _, y => by cases y <;> simp [equal, strip]

theorem equalList_strip : (as bs : List AstArgument) →
    equalList (stripList as) (stripList bs) = equalList as bs
  | [], [] => rfl
  | [], _ :: _ => rfl
  | _ :: _, [] => rfl
  | a :: as, b :: bs => by
    simp [equalList, stripList, equal_strip a b, equalList_strip as bs]

theorem equalOpt_strip : (e e' : Option AstArgument) →
    equalOpt (stripOpt e) (stripOpt e') = equalOpt e e'
  | none, none => rfl
  | none, some _ => rfl
  | some _, none => rfl
  | some a, some b => by simp [equalOpt, stripOpt, equal_strip a b]

end

theorem clone_intrinsic_eq (loc : SrcLoc) (ad : Nat) (f : FunctorOp)
    (as : List AstArgument) (n : Nat) :
    clone (astIntrinsicFunctor loc ad f as) n =
      (astIntrinsicFunctor loc n f (cloneList as (n + 1)).1,
        (cloneList as (n + 1)).2) := rfl

theorem clone_userdef_eq (loc : SrcLoc) (ad : Nat) (nm : String)
    (as : List AstArgument) (n : Nat) :
    clone (astUserDefinedFunctor loc ad nm as) n =
      (astUserDefinedFunctor loc n nm (cloneList as (n + 1)).1,
        (cloneList as (n + 1)).2) := rfl

theorem clone_record_eq (loc : SrcLoc) (ad : Nat) (as : List AstArgument)
    (n : Nat) :
    clone (astRecordInit loc ad as) n =
      (astRecordInit loc n (cloneList as (n + 1)).1,
        (cloneList as (n + 1)).2) := rfl

theorem clone_typecast_eq (loc : SrcLoc) (ad : Nat) (v : AstArgument)
    (t : String) (n : Nat) :
    clone (astTypeCast loc ad v t) n =
      (astTypeCast loc n (clone v (n + 1)).1 t, (clone v (n + 1)).2) := rfl

theorem clone_aggregator_eq (loc : SrcLoc) (ad : Nat) (f : AggOp)
    (e : Option AstArgument) (b : List AstLiteral) (n : Nat) :
    clone (astAggregator loc ad f e b) n =
      (astAggregator loc n f (cloneOpt e (n + 1)).1
          (cloneLits b (cloneOpt e (n + 1)).2).1,
        (cloneLits b (cloneOpt e (n + 1)).2).2) := rfl

theorem cloneList_cons_eq (a : AstArgument) (as : List AstArgument) (n : Nat) :
    cloneList (a :: as) n =
      ((clone a n).1 :: (cloneList as (clone a n).2).1,
        (cloneList as (clone a n).2).2) := rfl

theorem cloneOpt_some_eq (a : AstArgument) (n : Nat) :
    cloneOpt (some a) n = (some (clone a n).1, (clone a n).2) := rfl

theorem cloneLits_cons_eq (l : AstLiteral) (ls : List AstLiteral) (n : Nat) :
    cloneLits (l :: ls) n =
      ((⟨n, l.payload⟩ : AstLiteral) :: (cloneLits ls (n + 1)).1,
        (cloneLits ls (n + 1)).2) := rfl

mutual

theorem strip_eraseAddr : (x : AstArgument) → strip (eraseAddr x) = strip x
  | astVariable _ _ _ => rfl
  | astUnnamedVariable _ _ => rfl
  | astCounter _ _ => rfl
  | astNumericConstant _ _ _ _ => rfl
  | astStringConstant _ _ _ _ => rfl
  | astNullConstant _ _ => rfl
  | astIntrinsicFunctor _ _ _ as => by
    simp [eraseAddr, strip, stripList_eraseAddrList as]
  | astUserDefinedFunctor _ _ _ as => by
    simp [eraseAddr, strip, stripList_eraseAddrList as]
  | astRecordInit _ _ as => by
    simp [eraseAddr, strip, stripList_eraseAddrList as]
  | astTypeCast _ _ v _ => by simp [eraseAddr, strip, strip_eraseAddr v]
  | astAggregator _ _ _ e b => by
    simp [eraseAddr, strip, stripOpt_eraseAddrOpt e, List.map_map]
  | astSubroutineArgument _ _ _ => rfl

theorem stripList_eraseAddrList : (as : List AstArgument) →
    stripList (eraseAddrList as) = stripList as
  | [] => rfl
  | a :: as => by
    simp [eraseAddrList, stripList, strip_eraseAddr a,
      stripList_eraseAddrList as]

theorem stripOpt_eraseAddrOpt : (e : Option AstArgument) →
    stripOpt (eraseAddrOpt e) = stripOpt e
  | none => rfl
  | some a => by simp [eraseAddrOpt, stripOpt, strip_eraseAddr a]

end

theorem cloneLits_map_zero : (b : List AstLiteral) → (n : Nat) →
    ((cloneLits b n).1.map fun l => (⟨0, l.payload⟩ : AstLiteral)) =
      b.map fun l => ⟨0, l.payload⟩
  | [], _ => rfl
  | l :: ls, n => by
    simp [cloneLits_cons_eq, cloneLits_map_zero ls]

mutual

theorem eraseAddr_clone : (x : AstArgument) → (n : Nat) →
    eraseAddr (clone x n).1 = eraseAddr x
  | astVariable _ _ _, _ => rfl
  | astUnnamedVariable _ _, _ => rfl
  | astCounter _ _, _ => rfl
  | astNumericConstant _ _ _ _, _ => rfl
  | astStringConstant _ _ _ _, _ => rfl
  | astNullConstant _ _, _ => rfl
  | astIntrinsicFunctor _ _ _ as, n => by
    simp [clone_intrinsic_eq, eraseAddr, eraseAddrList_cloneList as (n + 1)]
  | astUserDefinedFunctor _ _ _ as, n => by
    simp [clone_userdef_eq, eraseAddr, eraseAddrList_cloneList as (n + 1)]
  | astRecordInit _ _ as, n => by
    simp [clone_record_eq, eraseAddr, eraseAddrList_cloneList as (n + 1)]
  | astTypeCast _ _ v _, n => by
    simp [clone_typecast_eq, eraseAddr, eraseAddr_clone v (n + 1)]
  | astAggregator _ _ _ e b, n => by
    simp [clone_aggregator_eq, eraseAddr, eraseAddrOpt_cloneOpt e (n + 1),
      cloneLits_map_zero b]
  | astSubroutineArgument _ _ _, _ => rfl

theorem eraseAddrList_cloneList : (as : List AstArgument) → (n : Nat) →
    eraseAddrList (cloneList as n).1 = eraseAddrList as
  | [], _ => rfl
  | a :: as, n => by
    simp [cloneList_cons_eq, eraseAddrList, eraseAddr_clone a n,
      eraseAddrList_cloneList as (clone a n).2]

theorem eraseAddrOpt_cloneOpt : (e : Option AstArgument) → (n : Nat) →
    eraseAddrOpt (cloneOpt e n).1 = eraseAddrOpt e
  | none, _ => rfl
  | some a, n => by
    simp [cloneOpt_some_eq, eraseAddrOpt, eraseAddr_clone a n]

end

theorem cloneLits_mono : (b : List AstLiteral) → (n : Nat) →
    n ≤ (cloneLits b n).2 ∧
      ∀ a ∈ (cloneLits b n).1.map AstLiteral.addr, n ≤ a
  | [], _ => by simp [cloneLits]
  | l :: ls, n => by
    have ih := cloneLits_mono ls (n + 1)
    simp only [cloneLits_cons_eq, List.map_cons, List.mem_cons]
    constructor
    · omega
    · intro a ha
      rcases ha with h | h
      · omega
      · have := ih.2 a h
        omega

mutual

theorem clone_fresh : (x : AstArgument) → (n : Nat) →
    n ≤ (clone x n).2 ∧ ∀ a ∈ addrs (clone x n).1, n ≤ a
  | astVariable _ _ _, _ => by simp [clone, addrs]
  | astUnnamedVariable _ _, _ => by simp [clone, addrs]
  | astCounter _ _, _ => by simp [clone, addrs]
  | astNumericConstant _ _ _ _, _ => by simp [clone, addrs]
  | astStringConstant _ _ _ _, _ => by simp [clone, addrs]
  | astNullConstant _ _, _ => by simp [clone, addrs]
  | astIntrinsicFunctor _ _ _ as, n => by
    have ih := cloneList_fresh as (n + 1)
    simp only [clone_intrinsic_eq, addrs, List.mem_cons]
    constructor
    · omega
    · intro a ha
      rcases ha with h | h
      · omega
      · have := ih.2 a h
        omega
  | astUserDefinedFunctor _ _ _ as, n => by
    have ih := cloneList_fresh as (n + 1)
    simp only [clone_userdef_eq, addrs, List.mem_cons]
    constructor
    · omega
    · intro a ha
      rcases ha with h | h
      · omega
      · have := ih.2 a h
        omega
  | astRecordInit _ _ as, n => by
    have ih := cloneList_fresh as (n + 1)
    simp only [clone_record_eq, addrs, List.mem_cons]
    constructor
    · omega
    · intro a ha
      rcases ha with h | h
      · omega
      · have := ih.2 a h
        omega
  | astTypeCast _ _ v _, n => by
    have ih := clone_fresh v (n + 1)
    simp only [clone_typecast_eq, addrs, List.mem_cons]
    constructor
    · omega
    · intro a ha
      rcases ha with h | h
      · omega
      · have := ih.2 a h
        omega
  | astAggregator _ _ _ e b, n => by
    have ihe := cloneOpt_fresh e (n + 1)
    have ihb := cloneLits_mono b (cloneOpt e (n + 1)).2
    simp only [clone_aggregator_eq, addrs, List.mem_cons, List.mem_append]
    constructor
    · omega
    · intro a ha
      rcases ha with h | h | h
      · omega
      · have := ihe.2 a h
        omega
      · have := ihb.2 a h
        omega
  | astSubroutineArgument _ _ _, _ => by simp [clone, addrs]

theorem cloneList_fresh : (as : List AstArgument) → (n : Nat) →
    n ≤ (cloneList as n).2 ∧ ∀ a ∈ addrsList (cloneList as n).1, n ≤ a
  | [], _ => by simp [cloneList, addrsList]
  | a :: as, n => by
    have ih1 := clone_fresh a n
    have ih2 := cloneList_fresh as (clone a n).2
    simp only [cloneList_cons_eq, addrsList, List.mem_append]
    constructor
    · omega
    · intro c hc
      rcases hc with h | h
      · exact ih1.2 c h
      · have := ih2.2 c h
        omega

theorem cloneOpt_fresh : (e : Option AstArgument) → (n : Nat) →
    n ≤ (cloneOpt e n).2 ∧ ∀ a ∈ addrsOpt (cloneOpt e n).1, n ≤ a
  | none, _ => by simp [cloneOpt, addrsOpt]
  | some a, n => by
    have ih := clone_fresh a n
    simpa [cloneOpt_some_eq, addrsOpt] using ih

end

theorem strip_clone (x : AstArgument) (n : Nat) :
    strip (clone x n).1 = strip x := by
  rw [← strip_eraseAddr (clone x n).1, eraseAddr_clone x n, strip_eraseAddr x]

theorem equal_clone (x : AstArgument) (n : Nat) :
    equal x (clone x n).1 = true := by
  rw [← equal_strip, strip_clone, equal_strip]
  exact equal_refl x

theorem clone_disjoint (x : AstArgument) (n : Nat) (h : addrsBelow n x) :
    ∀ a ∈ addrs (clone x n).1, a ∉ addrs x := by
  intro a ha hmem
  have h1 := (clone_fresh x n).2 a ha
  have h2 := h a hmem
  omega

mutual

theorem setNameAt_not_mem : (x : AstArgument) → (a : Nat) → (s : String) →
    a ∉ addrs x → setNameAt a s x = x
  | astVariable _ ad _, a, s => by
    intro h
    simp [addrs] at h
    simp [setNameAt, Ne.symm h]
  | astUnnamedVariable _ _, _, _ => fun _ => rfl
  | astCounter _ _, _, _ => fun _ => rfl
  | astNumericConstant _ _ _ _, _, _ => fun _ => rfl
  | astStringConstant _ _ _ _, _, _ => fun _ => rfl
  | astNullConstant _ _, _, _ => fun _ => rfl
  | astIntrinsicFunctor _ _ _ as, a, s => by
    intro h
    simp only [addrs, List.mem_cons] at h
    simp [setNameAt, setNameAtList_not_mem as a s (fun hm => h (Or.inr hm))]
  | astUserDefinedFunctor _ _ _ as, a, s => by
    intro h
    simp only [addrs, List.mem_cons] at h
    simp [setNameAt, setNameAtList_not_mem as a s (fun hm => h (Or.inr hm))]
  | astRecordInit _ _ as, a, s => by
    intro h
    simp only [addrs, List.mem_cons] at h
    simp [setNameAt, setNameAtList_not_mem as a s (fun hm => h (Or.inr hm))]
  | astTypeCast _ _ v _, a, s => by
    intro h
    simp only [addrs, List.mem_cons] at h
    simp [setNameAt, setNameAt_not_mem v a s (fun hm => h (Or.inr hm))]
  | astAggregator _ _ _ e b, a, s => by
    intro h
    simp only [addrs, List.mem_cons, List.mem_append] at h
    simp [setNameAt,
      setNameAtOpt_not_mem e a s (fun hm => h (Or.inr (Or.inl hm)))]
  | astSubroutineArgument _ _ _, _, _ => fun _ => rfl

theorem setNameAtList_not_mem : (as : List AstArgument) → (a : Nat) →
    (s : String) → a ∉ addrsList as → setNameAtList a s as = as
  | [], _, _ => fun _ => rfl
  | x :: xs, a, s => by
    intro h
    simp only [addrsList, List.mem_append] at h
    simp [setNameAtList, setNameAt_not_mem x a s (fun hm => h (Or.inl hm)),
      setNameAtList_not_mem xs a s (fun hm => h (Or.inr hm))]

theorem setNameAtOpt_not_mem : (e : Option AstArgument) → (a : Nat) →
    (s : String) → a ∉ addrsOpt e → setNameAtOpt a s e = e
  | none, _, _ => fun _ => rfl
  | some x, a, s => by
    intro h
    simp only [addrsOpt] at h
    simp [setNameAtOpt, setNameAt_not_mem x a s h]

end

theorem variantTag_eq_of_equal :
    ∀ x y : AstArgument, equal x y = true → variantTag x = variantTag y := by
  intro x y h
  cases x <;> cases y <;> try (simp_all [equal, variantTag]; done)
  case astNumericConstant.astNumericConstant =>
    rename_i l ad k w l' ad' k' w'
    simp only [equal, Bool.and_eq_true, decide_eq_true_eq] at h
    obtain ⟨hk, -⟩ := h
    subst hk
    cases k <;> rfl

theorem mapStateList_cons_eq {α σ : Type} (f : α → σ → α × σ) (a : α)
    (as : List α) (s : σ) :
    mapStateList f (a :: as) s =
      ((f a s).1 :: (mapStateList f as (f a s).2).1,
        (mapStateList f as (f a s).2).2) := rfl

theorem mapStateOpt_some_eq {α σ : Type} (f : α → σ → α × σ) (a : α) (s : σ) :
    mapStateOpt f (some a) s = (some (f a s).1, (f a s).2) := rfl

theorem mapNode_argNode_eq {σ : Type} (m : AstNodeMapper σ) (a : AstArgument)
    (s : σ) :
    m.mapNode (.argNode a) s =
      (.argNode (m.mapArg a s).1, (m.mapArg a s).2) := rfl

theorem mapNode_litNode_eq {σ : Type} (m : AstNodeMapper σ) (l : AstLiteral)
    (s : σ) :
    m.mapNode (.litNode l) s =
      (.litNode (m.mapLit l s).1, (m.mapLit l s).2) := rfl

theorem mapStateList_argNode {σ : Type} (m : AstNodeMapper σ) :
    (as : List AstArgument) → (s : σ) →
    mapStateList m.mapNode (as.map .argNode) s =
      ((mapStateList m.mapArg as s).1.map .argNode,
        (mapStateList m.mapArg as s).2)
  | [], _ => rfl
  | a :: as, s => by
    simp [mapStateList_cons_eq, mapNode_argNode_eq,
      mapStateList_argNode m as]

theorem mapStateList_litNode {σ : Type} (m : AstNodeMapper σ) :
    (b : List AstLiteral) → (s : σ) →
    mapStateList m.mapNode (b.map .litNode) s =
      ((mapStateList m.mapLit b s).1.map .litNode,
        (mapStateList m.mapLit b s).2)
  | [], _ => rfl
  | l :: ls, s => by
    simp [mapStateList_cons_eq, mapNode_litNode_eq,
      mapStateList_litNode m ls]

theorem apply_intrinsic_eq {σ : Type} (m : AstNodeMapper σ) (loc : SrcLoc)
    (ad : Nat) (f : FunctorOp) (as : List AstArgument) (s : σ) :
    apply m (astIntrinsicFunctor loc ad f as) s =
      (astIntrinsicFunctor loc ad f (mapStateList m.mapArg as s).1,
        (mapStateList m.mapArg as s).2) := rfl

theorem apply_userdef_eq {σ : Type} (m : AstNodeMapper σ) (loc : SrcLoc)
    (ad : Nat) (nm : String) (as : List AstArgument) (s : σ) :
    apply m (astUserDefinedFunctor loc ad nm as) s =
      (astUserDefinedFunctor loc ad nm (mapStateList m.mapArg as s).1,
        (mapStateList m.mapArg as s).2) := rfl

theorem apply_record_eq {σ : Type} (m : AstNodeMapper σ) (loc : SrcLoc)
    (ad : Nat) (as : List AstArgument) (s : σ) :
    apply m (astRecordInit loc ad as) s =
      (astRecordInit loc ad (mapStateList m.mapArg as s).1,
        (mapStateList m.mapArg as s).2) := rfl

theorem apply_typecast_eq {σ : Type} (m : AstNodeMapper σ) (loc : SrcLoc)
    (ad : Nat) (v : AstArgument) (t : String) (s : σ) :
    apply m (astTypeCast loc ad v t) s =
      (astTypeCast loc ad (m.mapArg v s).1 t, (m.mapArg v s).2) := rfl

theorem apply_aggregator_eq {σ : Type} (m : AstNodeMapper σ) (loc : SrcLoc)
    (ad : Nat) (f : AggOp) (e : Option AstArgument) (b : List AstLiteral)
    (s : σ) :
    apply m (astAggregator loc ad f e b) s =
      (astAggregator loc ad f (mapStateOpt m.mapArg e s).1
          (mapStateList m.mapLit b (mapStateOpt m.mapArg e s).2).1,
        (mapStateList m.mapLit b (mapStateOpt m.mapArg e s).2).2) := rfl

theorem apply_children {σ : Type} (m : AstNodeMapper σ) (x : AstArgument)
    (s : σ) :
    getChildNodes (apply m x s).1 =
        (mapStateList m.mapNode (getChildNodes x) s).1 ∧
      (apply m x s).2 = (mapStateList m.mapNode (getChildNodes x) s).2 := by
  cases x
  case astVariable => exact ⟨rfl, rfl⟩
  case astUnnamedVariable => exact ⟨rfl, rfl⟩
  case astCounter => exact ⟨rfl, rfl⟩
  case astNumericConstant => exact ⟨rfl, rfl⟩
  case astStringConstant => exact ⟨rfl, rfl⟩
  case astNullConstant => exact ⟨rfl, rfl⟩
  case astSubroutineArgument => exact ⟨rfl, rfl⟩
  case astIntrinsicFunctor loc ad f as =>
    simp [apply_intrinsic_eq, getChildNodes, mapStateList_argNode]
  case astUserDefinedFunctor loc ad nm as =>
    simp [apply_userdef_eq, getChildNodes, mapStateList_argNode]
  case astRecordInit loc ad as =>
    simp [apply_record_eq, getChildNodes, mapStateList_argNode]
  case astTypeCast loc ad v t =>
    simp [apply_typecast_eq, getChildNodes, mapStateList_cons_eq,
      mapNode_argNode_eq, mapStateList]
  case astAggregator loc ad f e b =>
    cases e
    · simp [apply_aggregator_eq, getChildNodes, mapStateOpt,
        mapStateList_litNode]
    · simp [apply_aggregator_eq, getChildNodes, mapStateOpt_some_eq,
        mapStateList_cons_eq, mapNode_argNode_eq, mapStateList_litNode]

theorem mapStateList_id {α σ : Type} :
    (as : List α) → (s : σ) →
      mapStateList (fun a s => (a, s)) as s = (as, s)
  | [], _ => rfl
  | a :: as, s => by simp [mapStateList_cons_eq, mapStateList_id as]

theorem mapStateOpt_id {α σ : Type} :
    (e : Option α) → (s : σ) → mapStateOpt (fun a s => (a, s)) e s = (e, s)
  | none, _ => rfl
  | some _, _ => rfl

theorem apply_idMapper {σ : Type} (x : AstArgument) (s : σ) :
    apply (idMapper σ) x s = (x, s) := by
  cases x <;>
    simp [idMapper, apply, apply_intrinsic_eq, apply_userdef_eq,
      apply_record_eq, apply_typecast_eq, apply_aggregator_eq,
      mapStateList_id, mapStateOpt_id]

theorem apply_leaf {σ : Type} (m : AstNodeMapper σ) (x : AstArgument)
    (s : σ) (h : isLeafVariant x = true) : apply m x s = (x, s) := by
  cases x <;> simp_all [isLeafVariant, apply]

theorem decodeSigned_encodeSigned (v : Int) (h1 : -(2 ^ 31) ≤ v)
    (h2 : v < 2 ^ 31) : decodeSigned (encodeSigned v) = v := by
  unfold encodeSigned decodeSigned
  split <;> omega

theorem decodeFloat_encodeFloat (f : Float32) (h : f.valid) :
    decodeFloat (encodeFloat f) = f := by
  obtain ⟨hexp, hfrac⟩ := h
  cases f with
  | mk sign exp frac =>
    simp only [Float32.valid] at hexp hfrac
    unfold encodeFloat decodeFloat
    cases sign <;> simp only [cond] <;>
      simp only [Float32.mk.injEq, decide_eq_true_eq, decide_eq_false_iff_not,
        decide_eq_true_iff] <;>
      refine ⟨?_, ?_, ?_⟩ <;> simp at hexp hfrac ⊢ <;> omega

theorem getSrcLoc_clone (x : AstArgument) (n : Nat) :
    getSrcLoc (clone x n).1 = getSrcLoc x := by
  cases x <;> rfl

/-- C1 counterexample: the claim says construction through ANY public
constructor with a mismatched argument count fails fast. The list-taking
public constructor (`AstIntrinsicFunctor(FunctorOp, vector<...>)`,
`AstArgument.h` line 340) contains no arity assertion: it successfully
builds an intrinsic `add` functor with zero arguments although the
registry's declared arity for `add` is two. -/
theorem C1_any_ctor_counterexample :
    isValidFunctorOpArity FunctorOp.add 0 = false ∧
      AstIntrinsicFunctor.mkVec ⟨0⟩ 0 FunctorOp.add [] =
        astIntrinsicFunctor ⟨0⟩ 0 FunctorOp.add [] ∧
      AstFunctor.getArity (AstIntrinsicFunctor.mkVec ⟨0⟩ 0 FunctorOp.add []) =
        0 :=
  ⟨rfl, rfl, rfl⟩

/-- C1 (amended): constructing an `AstIntrinsicFunctor` through the variadic
public constructor with an argument count that does not match the registry's
declared arity fails fast, and construction with the matching count succeeds;
the list-taking public constructor performs no arity validation and succeeds
with any argument count. -/
theorem C1_arity_check_amended (loc : SrcLoc) (ad : Nat) (f : FunctorOp)
    (ops : List AstArgument) :
    (AstIntrinsicFunctor.mkOps loc ad f ops).isSome =
        isValidFunctorOpArity f ops.length ∧
      (isValidFunctorOpArity f ops.length = true →
        AstIntrinsicFunctor.mkOps loc ad f ops =
          some (astIntrinsicFunctor loc ad f ops)) ∧
      (isValidFunctorOpArity f ops.length = false →
        AstIntrinsicFunctor.mkOps loc ad f ops = none) ∧
      AstIntrinsicFunctor.mkVec loc ad f ops =
        astIntrinsicFunctor loc ad f ops := by
  cases h : isValidFunctorOpArity f ops.length <;>
    simp [AstIntrinsicFunctor.mkOps, AstIntrinsicFunctor.mkVec, h]

/-- C1 witness: the variadic constructor succeeds on `add` with two
arguments and fails on `add` with one argument. -/
theorem C1_arity_check_amended_witness :
    isValidFunctorOpArity FunctorOp.add 2 = true ∧
      AstIntrinsicFunctor.mkOps ⟨0⟩ 0 FunctorOp.add
          [astNullConstant ⟨0⟩ 1, astNullConstant ⟨0⟩ 2] =
        some (astIntrinsicFunctor ⟨0⟩ 0 FunctorOp.add
          [astNullConstant ⟨0⟩ 1, astNullConstant ⟨0⟩ 2]) ∧
      isValidFunctorOpArity FunctorOp.add 1 = false ∧
      AstIntrinsicFunctor.mkOps ⟨0⟩ 0 FunctorOp.add [astNullConstant ⟨0⟩ 1] =
        none :=
  ⟨by decide,
    (C1_arity_check_amended ⟨0⟩ 0 FunctorOp.add
      [astNullConstant ⟨0⟩ 1, astNullConstant ⟨0⟩ 2]).2.1 (by decide),
    by decide,
    (C1_arity_check_amended ⟨0⟩ 0 FunctorOp.add
      [astNullConstant ⟨0⟩ 1]).2.2.1 (by decide)⟩

/-- C2: for every node of every variant whose tree lives below the allocator
counter, `clone` yields a structurally equal node (`equal(x, clone(x))`), a
field-for-field identical copy up to heap identity (same variant, payloads,
deep-cloned children, source locations copied verbatim at every level), and
the clone shares no owned sub-structure with the original (its address set is
disjoint from the original's). -/
theorem C2_clone_contract (x : AstArgument) (n : Nat) (h : addrsBelow n x) :
    equal x (clone x n).1 = true ∧
      eraseAddr (clone x n).1 = eraseAddr x ∧
      getSrcLoc (clone x n).1 = getSrcLoc x ∧
      ∀ a ∈ addrs (clone x n).1, a ∉ addrs x :=
  ⟨equal_clone x n, eraseAddr_clone x n, getSrcLoc_clone x n,
    clone_disjoint x n h⟩

/-- C2 witness: a sum aggregator owning a target variable and one body
literal, cloned at counter 3; the clone is structurally equal, identical up
to heap identity, keeps the source locations, and owns only fresh storage
(address 4 belongs to the clone, not to the original). -/
theorem C2_clone_contract_witness :
    addrsBelow 3 (astAggregator ⟨1⟩ 0 AggOp.sum (some (astVariable ⟨2⟩ 1 "x"))
        [⟨2, 42⟩]) ∧
      equal (astAggregator ⟨1⟩ 0 AggOp.sum (some (astVariable ⟨2⟩ 1 "x"))
          [⟨2, 42⟩])
        (clone (astAggregator ⟨1⟩ 0 AggOp.sum (some (astVariable ⟨2⟩ 1 "x"))
          [⟨2, 42⟩]) 3).1 = true ∧
      eraseAddr (clone (astAggregator ⟨1⟩ 0 AggOp.sum
          (some (astVariable ⟨2⟩ 1 "x")) [⟨2, 42⟩]) 3).1 =
        eraseAddr (astAggregator ⟨1⟩ 0 AggOp.sum
          (some (astVariable ⟨2⟩ 1 "x")) [⟨2, 42⟩]) ∧
      getSrcLoc (clone (astAggregator ⟨1⟩ 0 AggOp.sum
          (some (astVariable ⟨2⟩ 1 "x")) [⟨2, 42⟩]) 3).1 = ⟨1⟩ ∧
      4 ∉ addrs (astAggregator ⟨1⟩ 0 AggOp.sum (some (astVariable ⟨2⟩ 1 "x"))
        [⟨2, 42⟩]) :=
  ⟨by decide,
    (C2_clone_contract _ 3 (by decide)).1,
    (C2_clone_contract _ 3 (by decide)).2.1,
    (C2_clone_contract _ 3 (by decide)).2.2.1,
    (C2_clone_contract _ 3 (by decide)).2.2.2 4 (by decide)⟩

/-- C3: for each numeric kind (signed, unsigned, float), an
`AstNumericConstant` constructed from a representable value `v` satisfies
`getConstant() = v`, for every representable `v` of that kind. -/
theorem C3_numeric_roundtrip :
    (∀ (loc : SrcLoc) (ad : Nat) (v : Int), -(2 ^ 31) ≤ v → v < 2 ^ 31 →
        AstNumberConstant.getConstant (AstNumberConstant.mk loc ad v) =
          some v) ∧
      (∀ (loc : SrcLoc) (ad v : Nat), v < 2 ^ 32 →
        AstUnsignedConstant.getConstant (AstUnsignedConstant.mk loc ad v) =
          some v) ∧
      (∀ (loc : SrcLoc) (ad : Nat) (f : Float32), f.valid →
        AstFloatConstant.getConstant (AstFloatConstant.mk loc ad f) =
          some f) := by
  refine ⟨fun loc ad v h1 h2 => ?_, fun loc ad v h => rfl,
    fun loc ad f h => ?_⟩
  · simp [AstNumberConstant.mk, AstNumberConstant.getConstant,
      decodeSigned_encodeSigned v h1 h2]
  · simp [AstFloatConstant.mk, AstFloatConstant.getConstant,
      decodeFloat_encodeFloat f h]

/-- C3 witness: the boundary values round-trip: minimum and maximum 32-bit
signed integer, zero and `-1`; zero and the maximum 32-bit unsigned value;
positive and negative floating zero and both infinities. -/
theorem C3_numeric_roundtrip_witness :
    AstNumberConstant.getConstant (AstNumberConstant.mk ⟨0⟩ 0 (-(2 ^ 31))) =
        some (-(2 ^ 31)) ∧
      AstNumberConstant.getConstant (AstNumberConstant.mk ⟨0⟩ 0 (2 ^ 31 - 1)) =
        some (2 ^ 31 - 1) ∧
      AstNumberConstant.getConstant (AstNumberConstant.mk ⟨0⟩ 0 0) = some 0 ∧
      AstNumberConstant.getConstant (AstNumberConstant.mk ⟨0⟩ 0 (-1)) =
        some (-1) ∧
      AstUnsignedConstant.getConstant (AstUnsignedConstant.mk ⟨0⟩ 0 0) =
        some 0 ∧
      AstUnsignedConstant.getConstant
          (AstUnsignedConstant.mk ⟨0⟩ 0 (2 ^ 32 - 1)) = some (2 ^ 32 - 1) ∧
      AstFloatConstant.getConstant (AstFloatConstant.mk ⟨0⟩ 0 ⟨false, 0, 0⟩) =
        some ⟨false, 0, 0⟩ ∧
      AstFloatConstant.getConstant (AstFloatConstant.mk ⟨0⟩ 0 ⟨true, 0, 0⟩) =
        some ⟨true, 0, 0⟩ ∧
      AstFloatConstant.getConstant (AstFloatConstant.mk ⟨0⟩ 0 ⟨false, 255, 0⟩) =
        some ⟨false, 255, 0⟩ ∧
      AstFloatConstant.getConstant (AstFloatConstant.mk ⟨0⟩ 0 ⟨true, 255, 0⟩) =
        some ⟨true, 255, 0⟩ :=
  ⟨C3_numeric_roundtrip.1 ⟨0⟩ 0 (-(2 ^ 31)) (by decide) (by decide),
    C3_numeric_roundtrip.1 ⟨0⟩ 0 (2 ^ 31 - 1) (by decide) (by decide),
    C3_numeric_roundtrip.1 ⟨0⟩ 0 0 (by decide) (by decide),
    C3_numeric_roundtrip.1 ⟨0⟩ 0 (-1) (by decide) (by decide),
    C3_numeric_roundtrip.2.1 ⟨0⟩ 0 0 (by decide),
    C3_numeric_roundtrip.2.1 ⟨0⟩ 0 (2 ^ 32 - 1) (by decide),
    C3_numeric_roundtrip.2.2 ⟨0⟩ 0 ⟨false, 0, 0⟩ (by decide),
    C3_numeric_roundtrip.2.2 ⟨0⟩ 0 ⟨true, 0, 0⟩ (by decide),
    C3_numeric_roundtrip.2.2 ⟨0⟩ 0 ⟨false, 255, 0⟩ (by decide),
    C3_numeric_roundtrip.2.2 ⟨0⟩ 0 ⟨true, 255, 0⟩ (by decide)⟩

/-- C4: node equality is reflexive and symmetric, never depends on source
location or heap identity (it is invariant under the canonicalisation that
zeroes them throughout), returns `false` for every pair of nodes of different
variants, and within a variant compares only the variant payload and owned
children: two variables are equal iff their names match, two numeric
constants of one kind and two string constants are equal iff their encoded
domain words match, and two unnamed variables or two counters are always
equal. -/
theorem C4_equality_contract :
    (∀ x : AstArgument, equal x x = true) ∧
      (∀ x y : AstArgument, equal x y = equal y x) ∧
      (∀ (x y : AstArgument) (l : SrcLoc), equal (setSrcLoc x l) y = equal x y) ∧
      (∀ x y : AstArgument, equal (strip x) (strip y) = equal x y) ∧
      (∀ x y : AstArgument, variantTag x ≠ variantTag y → equal x y = false) ∧
      (∀ (l l' : SrcLoc) (a a' : Nat) (n n' : String),
        equal (astVariable l a n) (astVariable l' a' n') = true ↔ n = n') ∧
      (∀ (l l' : SrcLoc) (a a' : Nat) (k : NumericKind) (w w' : Nat),
        equal (astNumericConstant l a k w) (astNumericConstant l' a' k w') =
            true ↔ w = w') ∧
      (∀ (l l' : SrcLoc) (a a' t t' w w' : Nat),
        equal (astStringConstant l a t w) (astStringConstant l' a' t' w') =
            true ↔ w = w') ∧
      (∀ (l l' : SrcLoc) (a a' : Nat),
        equal (astUnnamedVariable l a) (astUnnamedVariable l' a') = true) ∧
      (∀ (l l' : SrcLoc) (a a' : Nat),
        equal (astCounter l a) (astCounter l' a') = true) := by
  refine ⟨equal_refl, equal_symm, ?_, equal_strip, ?_, ?_, ?_, ?_, ?_, ?_⟩
  · intro x y l
    cases x <;> rfl
  · intro x y h
    cases heq : equal x y
    · rfl
    · exact absurd (variantTag_eq_of_equal x y heq) h
  · intro l l' a a' n n'
    simp [equal]
  · intro l l' a a' k w w'
    simp [equal]
  · intro l l' a a' t t' w w'
    simp [equal]
  · intro l l' a a'
    simp [equal]
  · intro l l' a a'
    simp [equal]

/-- C4 witness: a variable and an unnamed variable are different variants and
compare unequal. -/
theorem C4_equality_contract_witness :
    variantTag (astVariable ⟨0⟩ 0 "x") ≠ variantTag (astUnnamedVariable ⟨0⟩ 1) ∧
      equal (astVariable ⟨0⟩ 0 "x") (astUnnamedVariable ⟨0⟩ 1) = false :=
  ⟨by decide, C4_equality_contract.2.2.2.2.1 _ _ (by decide)⟩

/-- C5: for `AstRecordInit`, both functor variants and `AstAggregator`,
`getChildNodes` returns exactly the owned sub-expressions in insertion order;
for the aggregator the order is the target expression (when set) followed by
the body literals in append order, so a sum aggregator with target `x` and no
body literals has children `[x]`, and `[x, literal]` after one body literal
is appended. -/
theorem C5_child_enumeration :
    (∀ (loc : SrcLoc) (ad : Nat) (f : FunctorOp) (as : List AstArgument),
        getChildNodes (astIntrinsicFunctor loc ad f as) = as.map .argNode) ∧
      (∀ (loc : SrcLoc) (ad : Nat) (nm : String) (as : List AstArgument),
        getChildNodes (astUserDefinedFunctor loc ad nm as) = as.map .argNode) ∧
      (∀ (loc : SrcLoc) (ad : Nat) (as : List AstArgument),
        getChildNodes (astRecordInit loc ad as) = as.map .argNode) ∧
      (∀ (loc : SrcLoc) (ad : Nat) (f : AggOp) (e : AstArgument)
          (b : List AstLiteral),
        getChildNodes (astAggregator loc ad f (some e) b) =
          .argNode e :: b.map .litNode) ∧
      (∀ (loc : SrcLoc) (ad : Nat) (f : AggOp) (b : List AstLiteral),
        getChildNodes (astAggregator loc ad f none b) = b.map .litNode) ∧
      (∀ (loc : SrcLoc) (ad : Nat) (f : AggOp) (e : Option AstArgument)
          (b : List AstLiteral) (lit : AstLiteral),
        getChildNodes
            (AstAggregator.addBodyLiteral (astAggregator loc ad f e b) lit) =
          getChildNodes (astAggregator loc ad f e b) ++ [.litNode lit]) ∧
      (∀ (loc : SrcLoc) (ad : Nat) (x : AstArgument),
        getChildNodes (AstAggregator.setTargetExpression
          (AstAggregator.mk loc ad .sum) x) = [.argNode x]) ∧
      (∀ (loc : SrcLoc) (ad : Nat) (x : AstArgument) (lit : AstLiteral),
        getChildNodes (AstAggregator.addBodyLiteral
            (AstAggregator.setTargetExpression (AstAggregator.mk loc ad .sum) x)
            lit) = [.argNode x, .litNode lit]) := by
  refine ⟨fun _ _ _ _ => rfl, fun _ _ _ _ => rfl, fun _ _ _ => rfl,
    fun _ _ _ _ _ => rfl, fun _ _ _ _ => rfl, ?_, fun _ _ _ => rfl,
    fun _ _ _ _ => rfl⟩
  intro loc ad f e b lit
  cases e <;> simp [getChildNodes, AstAggregator.addBodyLiteral]

/-- C6: every composite variant's `apply` passes each owned child through the
caller-supplied (possibly stateful) mapper exactly once, in the same order as
child enumeration, installing each returned node back into its slot — running
the mapper down the child list is literally what `apply` does to the node's
children and state; leaf variants' `apply` never invokes the mapper (the
state of an arbitrary stateful mapper is untouched); and applying an identity
mapper leaves the whole tree equal to before. -/
theorem C6_mapper_protocol :
    (∀ (σ : Type) (m : AstNodeMapper σ) (x : AstArgument) (s : σ),
        getChildNodes (apply m x s).1 =
            (mapStateList m.mapNode (getChildNodes x) s).1 ∧
          (apply m x s).2 = (mapStateList m.mapNode (getChildNodes x) s).2) ∧
      (∀ (σ : Type) (m : AstNodeMapper σ) (x : AstArgument) (s : σ),
        isLeafVariant x = true → apply m x s = (x, s)) ∧
      (∀ (σ : Type) (x : AstArgument) (s : σ),
        apply (idMapper σ) x s = (x, s) ∧
          equal x (apply (idMapper σ) x s).1 = true) :=
  ⟨fun _ m x s => apply_children m x s,
    fun _ m x s h => apply_leaf m x s h,
    fun σ x s => ⟨apply_idMapper x s, by
      rw [apply_idMapper]
      exact equal_refl x⟩⟩

/-- C6 witness: a counter is a leaf variant and `apply` returns it and the
mapper state unchanged. -/
theorem C6_mapper_protocol_witness :
    isLeafVariant (astCounter ⟨0⟩ 0) = true ∧
      apply (idMapper Nat) (astCounter ⟨0⟩ 0) 5 = (astCounter ⟨0⟩ 0, 5) :=
  ⟨by decide,
    C6_mapper_protocol.2.1 Nat (idMapper Nat) (astCounter ⟨0⟩ 0) 5 (by decide)⟩

/-- C7: a clone shares no owned sub-structure with the original: writing
through any heap identity owned by the clone (for example renaming a variable
owned by a cloned type cast) leaves the original node and its entire owned
subtree unchanged. -/
theorem C7_clone_mutation_independence (x : AstArgument) (n : Nat)
    (h : addrsBelow n x) :
    ∀ a ∈ addrs (clone x n).1, ∀ s : String, setNameAt a s x = x :=
  fun a ha s => setNameAt_not_mem x a s (clone_disjoint x n h a ha)

/-- C7 witness (Scenario 5): a type cast wrapping variable `x` with target
type `number` is cloned; renaming the clone's inner variable (at its heap
identity 3) to `y` changes the clone but leaves the original's inner
variable named `x`. -/
theorem C7_clone_mutation_independence_witness :
    addrsBelow 2 (astTypeCast ⟨0⟩ 0 (astVariable ⟨1⟩ 1 "x") "number") ∧
      3 ∈ addrs (clone (astTypeCast ⟨0⟩ 0 (astVariable ⟨1⟩ 1 "x") "number")
        2).1 ∧
      ((AstTypeCast.getValue (setNameAt 3 "y"
          (clone (astTypeCast ⟨0⟩ 0 (astVariable ⟨1⟩ 1 "x") "number") 2).1)).bind
        AstVariable.getName = some "y") ∧
      setNameAt 3 "y" (astTypeCast ⟨0⟩ 0 (astVariable ⟨1⟩ 1 "x") "number") =
        astTypeCast ⟨0⟩ 0 (astVariable ⟨1⟩ 1 "x") "number" ∧
      ((AstTypeCast.getValue (setNameAt 3 "y"
          (astTypeCast ⟨0⟩ 0 (astVariable ⟨1⟩ 1 "x") "number"))).bind
        AstVariable.getName = some "x") :=
  ⟨by decide, by decide, by decide,
    C7_clone_mutation_independence _ 2 (by decide) 3 (by decide) "y",
    by decide⟩

/-- C8: for every functor (intrinsic or user-defined) and index, `getArg`
returns the index-th owned argument and `setArg` replaces exactly that slot
when the index is below the arity; at or above the arity both fail fast
(assertion failure, modelled by `none`) and never silently read or write out
of bounds. -/
theorem C8_functor_arg_bounds (loc : SrcLoc) (ad : Nat) (f : FunctorOp)
    (nm : String) (as : List AstArgument) (idx : Nat) (a : AstArgument) :
    (∀ h : idx < as.length,
        AstFunctor.getArg (astIntrinsicFunctor loc ad f as) idx =
            some as[idx] ∧
          AstFunctor.getArg (astUserDefinedFunctor loc ad nm as) idx =
            some as[idx] ∧
          AstFunctor.setArg (astIntrinsicFunctor loc ad f as) idx a =
            some (astIntrinsicFunctor loc ad f (as.set idx a)) ∧
          AstFunctor.setArg (astUserDefinedFunctor loc ad nm as) idx a =
            some (astUserDefinedFunctor loc ad nm (as.set idx a)) ∧
          AstFunctor.getArg (astIntrinsicFunctor loc ad f (as.set idx a)) idx =
            some a ∧
          ∀ j, j ≠ idx →
            AstFunctor.getArg (astIntrinsicFunctor loc ad f (as.set idx a)) j =
              AstFunctor.getArg (astIntrinsicFunctor loc ad f as) j) ∧
      AstFunctor.getArity (astIntrinsicFunctor loc ad f as) = as.length ∧
      AstFunctor.getArity (astUserDefinedFunctor loc ad nm as) = as.length ∧
      (as.length ≤ idx →
        AstFunctor.getArg (astIntrinsicFunctor loc ad f as) idx = none ∧
          AstFunctor.getArg (astUserDefinedFunctor loc ad nm as) idx = none ∧
          AstFunctor.setArg (astIntrinsicFunctor loc ad f as) idx a = none ∧
          AstFunctor.setArg (astUserDefinedFunctor loc ad nm as) idx a =
            none) := by
  refine ⟨?_, rfl, rfl, ?_⟩
  · intro h
    refine ⟨?_, ?_, ?_, ?_, ?_, ?_⟩
    · simp [AstFunctor.getArg, List.getElem?_eq_getElem h]
    · simp [AstFunctor.getArg, List.getElem?_eq_getElem h]
    · simp [AstFunctor.setArg, h]
    · simp [AstFunctor.setArg, h]
    · simp [AstFunctor.getArg, List.getElem?_set, h]
    · intro j hj
      simp [AstFunctor.getArg, List.getElem?_set_ne (Ne.symm hj)]
  · intro h
    refine ⟨?_, ?_, ?_, ?_⟩
    · simp [AstFunctor.getArg, List.getElem?_eq_none h]
    · simp [AstFunctor.getArg, List.getElem?_eq_none h]
    · simp [AstFunctor.setArg, Nat.not_lt.mpr h]
    · simp [AstFunctor.setArg, Nat.not_lt.mpr h]

/-- C8 witness: on a binary `add` functor, index 1 reads and writes the
second slot; index 5 makes both `getArg` and `setArg` fail. -/
theorem C8_functor_arg_bounds_witness :
    AstFunctor.getArg (astIntrinsicFunctor ⟨0⟩ 0 FunctorOp.add
        [astNullConstant ⟨0⟩ 1, astVariable ⟨0⟩ 2 "x"]) 1 =
      some (astVariable ⟨0⟩ 2 "x") ∧
      AstFunctor.setArg (astIntrinsicFunctor ⟨0⟩ 0 FunctorOp.add
          [astNullConstant ⟨0⟩ 1, astVariable ⟨0⟩ 2 "x"]) 1
          (astNullConstant ⟨0⟩ 9) =
        some (astIntrinsicFunctor ⟨0⟩ 0 FunctorOp.add
          [astNullConstant ⟨0⟩ 1, astNullConstant ⟨0⟩ 9]) ∧
      AstFunctor.getArg (astIntrinsicFunctor ⟨0⟩ 0 FunctorOp.add
        [astNullConstant ⟨0⟩ 1, astVariable ⟨0⟩ 2 "x"]) 5 = none ∧
      AstFunctor.setArg (astIntrinsicFunctor ⟨0⟩ 0 FunctorOp.add
        [astNullConstant ⟨0⟩ 1, astVariable ⟨0⟩ 2 "x"]) 5
        (astNullConstant ⟨0⟩ 9) = none :=
  ⟨((C8_functor_arg_bounds ⟨0⟩ 0 FunctorOp.add "f"
      [astNullConstant ⟨0⟩ 1, astVariable ⟨0⟩ 2 "x"] 1
      (astNullConstant ⟨0⟩ 9)).1 (by decide)).1,
    ((C8_functor_arg_bounds ⟨0⟩ 0 FunctorOp.add "f"
      [astNullConstant ⟨0⟩ 1, astVariable ⟨0⟩ 2 "x"] 1
      (astNullConstant ⟨0⟩ 9)).1 (by decide)).2.2.1,
    ((C8_functor_arg_bounds ⟨0⟩ 0 FunctorOp.add "f"
      [astNullConstant ⟨0⟩ 1, astVariable ⟨0⟩ 2 "x"] 5
      (astNullConstant ⟨0⟩ 9)).2.2.2 (by decide)).1,
    ((C8_functor_arg_bounds ⟨0⟩ 0 FunctorOp.add "f"
      [astNullConstant ⟨0⟩ 1, astVariable ⟨0⟩ 2 "x"] 5
      (astNullConstant ⟨0⟩ 9)).2.2.2 (by decide)).2.2.1⟩

/-- C9: `AstIntrinsicFunctor::setFunction` replaces only the operator tag:
the argument list, the arity and the source location are unchanged, and no
arity validation against the registry is performed — concretely, retagging a
well-formed binary `add` functor to the unary `neg` succeeds and leaves a
functor whose arity is invalid for its operator. -/
theorem C9_setFunction_frame :
    (∀ (loc : SrcLoc) (ad : Nat) (f : FunctorOp) (as : List AstArgument)
        (g : FunctorOp),
        AstIntrinsicFunctor.setFunction (astIntrinsicFunctor loc ad f as) g =
            astIntrinsicFunctor loc ad g as ∧
          AstFunctor.getArguments (AstIntrinsicFunctor.setFunction
            (astIntrinsicFunctor loc ad f as) g) = as ∧
          AstFunctor.getArity (AstIntrinsicFunctor.setFunction
            (astIntrinsicFunctor loc ad f as) g) = as.length ∧
          getSrcLoc (AstIntrinsicFunctor.setFunction
            (astIntrinsicFunctor loc ad f as) g) = loc ∧
          AstIntrinsicFunctor.getFunction (AstIntrinsicFunctor.setFunction
            (astIntrinsicFunctor loc ad f as) g) = some g) ∧
      isValidFunctorOpArity FunctorOp.add 2 = true ∧
      AstIntrinsicFunctor.setFunction (astIntrinsicFunctor ⟨0⟩ 0 FunctorOp.add
          [astNullConstant ⟨0⟩ 1, astNullConstant ⟨0⟩ 2]) FunctorOp.neg =
        astIntrinsicFunctor ⟨0⟩ 0 FunctorOp.neg
          [astNullConstant ⟨0⟩ 1, astNullConstant ⟨0⟩ 2] ∧
      isValidFunctorOpArity FunctorOp.neg
        (AstFunctor.getArity (AstIntrinsicFunctor.setFunction
          (astIntrinsicFunctor ⟨0⟩ 0 FunctorOp.add
            [astNullConstant ⟨0⟩ 1, astNullConstant ⟨0⟩ 2]) FunctorOp.neg)) =
        false :=
  ⟨fun _ _ _ _ _ => ⟨rfl, rfl, rfl, rfl, rfl⟩, by decide, rfl, by decide⟩

/-- C10: cloning an `AstStringConstant` copies the stored symbol-table index
directly (the private index-taking constructor): the clone carries the same
table reference and an identical encoded domain word for every stored index —
even one never interned — and `clone`, whose signature involves no
`SymbolTable` at all, neither consults nor changes any table, so resolving
the clone against any table state gives exactly what the original resolves
to. -/
theorem C10_string_clone_copies_index (loc : SrcLoc) (ad t w n : Nat) :
    clone (astStringConstant loc ad t w) n =
        (astStringConstant loc n t w, n + 1) ∧
      AstConstant.getRamRepresentation (clone (astStringConstant loc ad t w)
          n).1 = AstConstant.getRamRepresentation (astStringConstant loc ad t w) ∧
      ∀ st : SymbolTable,
        AstStringConstant.getConstant st
            (clone (astStringConstant loc ad t w) n).1 =
          AstStringConstant.getConstant st (astStringConstant loc ad t w) :=
  ⟨rfl, rfl, fun _ => rfl⟩

end SouffleAst
